import Mathlib

/-!
# selfdrive/ui/qt/offroad/networking.cc

A shallow embedding of the Wi-Fi settings panel: the controller `Networking`, the list view
`WifiUI`, the detail view `WifiDetails` and the advanced page `AdvancedNetworking`.

Widgets are records of the properties the code sets on them.  The connection manager
(`WifiManager`) and the two modal dialogs are collaborators whose code is not part of
networking.cc: the manager is a record of what its queries return plus an arbitrary reaction to
each command, and a dialog is the value it returns.  Every collaborator command and every dialog
opened is appended to a log kept in the controller state, so that "exactly one call" is a
statement about that log.

`std::sort` enters twice: as any function meeting the contract the C++ standard gives it
(`StdSortContract`), for what holds of every conforming library, and as the algorithm of the GNU
C++ library (`std_sort`), for what the panel shows on a concrete snapshot.
-/

namespace Offroad

/-! ## Data model -/

/-- Modelled from the spec: `SecurityType` is declared in wifiManager.h, which is not among the
sources (spec section 3: enum OPEN, WPA, UNSUPPORTED). -/
inductive SecurityType where
  | OPEN
  | WPA
  | UNSUPPORTED
  deriving DecidableEq, Repr

/-- Modelled from the spec: `ConnectedType` is declared in wifiManager.h, which is not among the
sources (spec section 3: enum DISCONNECTED, CONNECTING, CONNECTED). -/
inductive ConnectedType where
  | DISCONNECTED
  | CONNECTING
  | CONNECTED
  deriving DecidableEq, Repr

/-- Modelled from the spec: `Network` is declared in wifiManager.h, which is not among the sources
(spec section 3, NetworkEntry).  The ssid bytes and their decoded text are both a `String`
(`QString::fromUtf8` is the identity of the model); `strength` is a natural number. -/
structure Network where
  ssid : String
  strength : Nat
  connected : ConnectedType
  security_type : SecurityType
  deriving DecidableEq, Repr

/-- Modelled from the spec: the queries of `WifiManager` (wifiManager.h is not among the sources;
spec section 6).  `seenNetworks` is the `QMap` from ssid to entry, listed in the map's key order,
which is the order `values()` returns; `isKnownConnection` is the known-network relation. -/
structure WifiManager where
  seenNetworks : List (String × Network)
  isKnownConnection : String → Bool
  ipv4_address : String

/-- The `QMap::values()` of the snapshot. -/
def WifiManager.values (wifi : WifiManager) : List Network :=
  wifi.seenNetworks.map Prod.snd

/-- The commands networking.cc sends to the manager, as they appear at the call sites:
`activateWifiConnection(ssid)`, `connect(n)`, `connect(n, pass)`, `forgetConnection(ssid)`,
`setTetheringEnabled(enabled)` and `updateGsmSettings(roaming, apn)`. -/
inductive WifiCall where
  | activateWifiConnection (ssid : String)
  | connect (n : Network)
  | connectWithPassword (n : Network) (pass : String)
  | forgetConnection (ssid : String)
  | setTetheringEnabled (enabled : Bool)
  | updateGsmSettings (roaming : Bool) (apn : String)
  deriving DecidableEq, Repr

/-- A modal dialog opened by the controller: `InputDialog::getText(title, this, tr("for ..."), true,
minLength)` with the ssid that fills the subtitle, or `ConfirmationDialog::confirm` with the ssid
that fills its question. -/
inductive Dialog where
  | getText (title : String) (ssid : String) (minLength : Nat)
  | confirm (ssid : String)
  deriving DecidableEq, Repr

/-! ## `std::sort` and `compare_by_strength` -/

/-- The requirement the C++ standard puts on the comparison passed to `std::sort`: it induces a
strict weak ordering (irreflexive, transitive, and incomparability is transitive). -/
structure StrictWeakOrder (comp : Network → Network → Bool) : Prop where
  irrefl : ∀ a, comp a a = false
  trans : ∀ a b c, comp a b = true → comp b c = true → comp a c = true
  equiv_trans : ∀ a b c, comp a b = false → comp b a = false → comp b c = false →
    comp c b = false → comp a c = false ∧ comp c a = false

/-- What the C++ standard promises of `std::sort(first, last, comp)`: the range is rearranged (a
permutation), and, when `comp` is a strict weak ordering, no element is ordered before one that
precedes it.  The standard promises nothing on the relative order of equivalent elements. -/
def StdSortContract (sort : (Network → Network → Bool) → List Network → List Network) : Prop :=
  ∀ comp xs, List.Perm (sort comp xs) xs ∧
    (StrictWeakOrder comp → List.Pairwise (fun a b => comp b a = false) (sort comp xs))

/-- Modelled from the spec: `compare_by_strength` is declared in wifiManager.h and defined outside
the sources; spec section 4.2 gives the order it induces, descending by `strength`. -/
def compare_by_strength (a b : Network) : Bool :=
  decide (a.strength > b.strength)

/-- The collaborators' behaviour: the manager's own reaction to a command (how its queries answer
afterwards) and the `std::sort` of the toolchain. -/
structure Env where
  react : WifiCall → WifiManager → WifiManager
  sort : (Network → Network → Bool) → List Network → List Network

/-- The relation "`b` is not ordered before `a`" of a comparison. -/
def notBefore (comp : Network → Network → Bool) (a b : Network) : Prop :=
  comp b a = false

/-! ## `std::sort` as the GNU C++ library implements it

The functions of `bits/stl_algo.h` and `bits/stl_heap.h` behind `std::sort`, on a list indexed from
0: introsort (median-of-three quicksort down to ranges of at most 16 elements, heap sort when the
depth limit runs out) followed by a final insertion sort.  Loops over iterators are recursions
with a counter; each counter starts high enough that the loop ends by its own condition first
(`scan_up_enough`, `unguarded_partition_enough`, `push_heap_enough`,
`adjust_heap_down_enough`, `lg_eq_log2`).  A comparison at a position outside the list is false, so the scans stop there.
The heap functions move a value through a hole; here the value sits in the hole, so each move is
an `iter_swap`. -/

/-- The comparison `comp(i, j)` on two positions of the list; false when a position is outside
it. -/
def compAt (comp : Network → Network → Bool) (l : List Network) (i j : Nat) : Bool :=
  match l[i]?, l[j]? with
  | some a, some b => comp a b
  | _, _ => false

/-- The exchange `std::iter_swap(i, j)`. -/
def iter_swap (l : List Network) (i j : Nat) : List Network :=
  match l[i]?, l[j]? with
  | some a, some b => (l.set i b).set j a
  | _, _ => l

/-- The function `__move_median_to_first(result, a, b, c, comp)`: the median of the three is
swapped to `result`. -/
def move_median_to_first (comp : Network → Network → Bool) (l : List Network)
    (result a b c : Nat) : List Network :=
  if compAt comp l a b then
    if compAt comp l b c then iter_swap l result b
    else if compAt comp l a c then iter_swap l result c
    else iter_swap l result a
  else if compAt comp l a c then iter_swap l result a
  else if compAt comp l b c then iter_swap l result c
  else iter_swap l result b

/-- The loop `while (comp(first, pivot)) ++first;` of `__unguarded_partition`; the result is the
new `first`. -/
def scan_up (comp : Network → Network → Bool) (l : List Network) (pivot : Nat) :
    Nat → Nat → Nat
  | 0, first => first
  | fuel + 1, first =>
    if compAt comp l first pivot then scan_up comp l pivot fuel (first + 1) else first

/-- The loop `while (comp(pivot, last)) --last;` of `__unguarded_partition`, started at the
already decremented `last`; the result is the new `last`. -/
def scan_down (comp : Network → Network → Bool) (l : List Network) (pivot : Nat) : Nat → Nat
  | 0 => 0
  | last + 1 =>
    if compAt comp l pivot (last + 1) then scan_down comp l pivot last else last + 1

/-- The function `__unguarded_partition(first, last, pivot, comp)`: the list after the swaps and
the cut it returns. -/
def unguarded_partition (comp : Network → Network → Bool) :
    Nat → List Network → Nat → Nat → Nat → List Network × Nat
  | 0, l, first, _, _ => (l, first)
  | fuel + 1, l, first, last, pivot =>
    let first := scan_up comp l pivot (l.length + 1) first
    let last := scan_down comp l pivot (last - 1)
    if first < last then
      unguarded_partition comp fuel (iter_swap l first last) (first + 1) last pivot
    else (l, first)

/-- The function `__unguarded_partition_pivot(first, last, comp)`: the median of the second, the
middle and the last element goes to `first` and is the pivot of the partition of the rest. -/
def unguarded_partition_pivot (comp : Network → Network → Bool) (l : List Network)
    (first last : Nat) : List Network × Nat :=
  let mid := first + (last - first) / 2
  let l := move_median_to_first comp l first (first + 1) mid (last - 1)
  unguarded_partition comp (last + 1) l (first + 1) last first

/-- The function `__push_heap(first, holeIndex, topIndex, value, comp)`, with `value` held at the
hole: the hole climbs while its parent is ordered before `value`. -/
def push_heap (comp : Network → Network → Bool) :
    Nat → List Network → Nat → Nat → Nat → List Network
  | 0, l, _, _, _ => l
  | fuel + 1, l, first, holeIndex, topIndex =>
    let parent := (holeIndex - 1) / 2
    if holeIndex > topIndex ∧ compAt comp l (first + parent) (first + holeIndex) = true then
      push_heap comp fuel (iter_swap l (first + holeIndex) (first + parent)) first parent topIndex
    else l

/-- The `while (secondChild < (len - 1) / 2)` loop of `__adjust_heap`, with `value` held at the
hole: the hole sinks to the child that is not ordered before the other.  The result is the list
and the final `secondChild`, which is also the hole. -/
def adjust_heap_down (comp : Network → Network → Bool) :
    Nat → List Network → Nat → Nat → Nat → List Network × Nat
  | 0, l, _, secondChild, _ => (l, secondChild)
  | fuel + 1, l, first, holeIndex, len =>
    if holeIndex < (len - 1) / 2 then
      let secondChild := 2 * (holeIndex + 1)
      let secondChild :=
        if compAt comp l (first + secondChild) (first + (secondChild - 1)) then secondChild - 1
        else secondChild
      adjust_heap_down comp fuel (iter_swap l (first + holeIndex) (first + secondChild)) first
        secondChild len
    else (l, holeIndex)

/-- The function `__adjust_heap(first, holeIndex, len, value, comp)`, with `value` held at the
hole: the sinking loop, the step to an only child when `len` is even, then `__push_heap`. -/
def adjust_heap (comp : Network → Network → Bool) (l : List Network)
    (first holeIndex len : Nat) : List Network :=
  let topIndex := holeIndex
  let down := adjust_heap_down comp (len + 1) l first holeIndex len
  let secondChild := down.2
  if len % 2 = 0 ∧ secondChild = (len - 2) / 2 then
    let child := 2 * (secondChild + 1) - 1
    push_heap comp (child + 1) (iter_swap down.1 (first + secondChild) (first + child)) first
      child topIndex
  else push_heap comp (secondChild + 1) down.1 first secondChild topIndex

/-- The function `__pop_heap(first, last, result, comp)`: the top goes to `result`, the value that
was there re-enters the heap `[first, last)` from the top. -/
def pop_heap (comp : Network → Network → Bool) (l : List Network) (first last result : Nat) :
    List Network :=
  adjust_heap comp (iter_swap l result first) first 0 (last - first)

/-- The loop of `__make_heap`: `__adjust_heap` at `parent`, `parent - 1`, ..., 0. -/
def make_heap_loop (comp : Network → Network → Bool) (first len : Nat) :
    Nat → List Network → List Network
  | 0, l => adjust_heap comp l first 0 len
  | parent + 1, l => make_heap_loop comp first len parent (adjust_heap comp l first (parent + 1) len)

/-- The function `__make_heap(first, last, comp)`. -/
def make_heap (comp : Network → Network → Bool) (l : List Network) (first last : Nat) :
    List Network :=
  if last - first < 2 then l
  else make_heap_loop comp first (last - first) ((last - first - 2) / 2) l

/-- The loop of `__heap_select` over `i` in `[middle, last)`, `k` positions to go. -/
def heap_select_loop (comp : Network → Network → Bool) (first middle : Nat) :
    Nat → Nat → List Network → List Network
  | 0, _, l => l
  | k + 1, i, l =>
    heap_select_loop comp first middle k (i + 1)
      (if compAt comp l i first then pop_heap comp l first middle i else l)

/-- The function `__heap_select(first, middle, last, comp)`. -/
def heap_select (comp : Network → Network → Bool) (l : List Network) (first middle last : Nat) :
    List Network :=
  heap_select_loop comp first middle (last - middle) middle (make_heap comp l first middle)

/-- The function `__sort_heap(first, last, comp)` on a heap of `n = last - first` elements. -/
def sort_heap (comp : Network → Network → Bool) (first : Nat) :
    Nat → List Network → List Network
  | 0, l => l
  | n + 1, l =>
    if n + 1 > 1 then sort_heap comp first n (pop_heap comp l first (first + n) (first + n))
    else l

/-- The function `__partial_sort(first, middle, last, comp)`. -/
def partial_sort (comp : Network → Network → Bool) (l : List Network) (first middle last : Nat) :
    List Network :=
  sort_heap comp first (middle - first) (heap_select comp l first middle last)

/-- The function `__introsort_loop(first, last, depth_limit, comp)`: while the range holds more
than 16 elements it is partitioned, the right part is handled by the recursive call and the loop
goes on with the left part; at depth limit 0 the range is heap sorted. -/
def introsort_loop (comp : Network → Network → Bool) :
    Nat → List Network → Nat → Nat → List Network
  | 0, l, first, last =>
    if last - first > 16 then partial_sort comp l first last last else l
  | depth_limit + 1, l, first, last =>
    if last - first > 16 then
      let cut := unguarded_partition_pivot comp l first last
      introsort_loop comp depth_limit (introsort_loop comp depth_limit cut.1 cut.2 last) first cut.2
    else l

/-- The function `__unguarded_linear_insert(last, comp)`: `val` moves left past every element it
is ordered before.  `before` lists the elements left of the hole, nearest first, and so does the
result, with `val` in place.  The C++ loop has no bound check; here it ends at the start of the
range at the latest. -/
def unguarded_linear_insert (comp : Network → Network → Bool) (val : Network) :
    List Network → List Network
  | [] => [val]
  | next :: before =>
    if comp val next then next :: unguarded_linear_insert comp val before
    else val :: next :: before

/-- The loop of `__insertion_sort(first, last, comp)`: `done` is the range before `i`; an element
ordered before `*first` goes to the front, any other is inserted by
`__unguarded_linear_insert`. -/
def insertion_sort_loop (comp : Network → Network → Bool) :
    List Network → List Network → List Network
  | done, [] => done
  | done, val :: rest =>
    insertion_sort_loop comp
      (match done with
        | [] => [val]
        | first :: _ =>
          if comp val first then val :: done
          else (unguarded_linear_insert comp val done.reverse).reverse)
      rest

/-- The function `__insertion_sort(first, last, comp)`. -/
def insertion_sort (comp : Network → Network → Bool) (l : List Network) : List Network :=
  match l with
  | [] => []
  | x :: rest => insertion_sort_loop comp [x] rest

/-- The function `__unguarded_insertion_sort(first, last, comp)`: `done` is everything before
`first`. -/
def unguarded_insertion_sort (comp : Network → Network → Bool) :
    List Network → List Network → List Network
  | done, [] => done
  | done, val :: rest =>
    unguarded_insertion_sort comp (unguarded_linear_insert comp val done.reverse).reverse rest

/-- The function `__final_insertion_sort(first, last, comp)`, with `_S_threshold = 16`. -/
def final_insertion_sort (comp : Network → Network → Bool) (l : List Network) : List Network :=
  if l.length > 16 then
    unguarded_insertion_sort comp (insertion_sort comp (l.take 16)) (l.drop 16)
  else insertion_sort comp l

/-- The halving loop behind `lg`. -/
def lg_loop : Nat → Nat → Nat
  | 0, _ => 0
  | fuel + 1, n => if n ≥ 2 then lg_loop fuel (n / 2) + 1 else 0

/-- The function `__lg(n)`: the position of the highest set bit of `n`. -/
def lg (n : Nat) : Nat :=
  lg_loop n n

/-- The function `std::sort(first, last, comp)` (`__sort`): nothing on an empty range, else
`__introsort_loop` with depth limit `__lg(last - first) * 2`, then `__final_insertion_sort`. -/
def std_sort (comp : Network → Network → Bool) (l : List Network) : List Network :=
  if l.length = 0 then l
  else final_insertion_sort comp (introsort_loop comp (lg l.length * 2) l 0 l.length)

/-- An environment whose manager does not react to commands and whose sort is `std_sort`. -/
def quietEnv : Env :=
  ⟨fun _ wifi => wifi, std_sort⟩

/-- Ties keep the snapshot's order: for each strength, the entries of that strength appear in
`output` in the order they have in `input`. -/
def TiesKeepOrder (input output : List Network) : Prop :=
  ∀ k : Nat, output.filter (fun n => n.strength == k) = input.filter (fun n => n.strength == k)

/-! ## Strength bucket: `std::clamp((int)round(network.strength / 33.), 0, 3)` -/

/-- C `round`: the nearest integer, halfway cases away from zero, over exact rationals. -/
def cround (q : ℚ) : ℤ :=
  if 0 ≤ q then ⌊q + 1 / 2⌋ else ⌈q - 1 / 2⌉

/-- `std::clamp(v, lo, hi)`: `lo` when `v < lo`, `hi` when `hi < v`, else `v`. -/
def clampInt (v lo hi : ℤ) : ℤ :=
  if v < lo then lo else if hi < v then hi else v

/-- The index `std::clamp((int)round(network.strength / 33.), 0, 3)` used by `WifiUI::refresh`
(line 344) and by `WifiDetails::refresh` (line 506). -/
def strengthBucket (strength : Nat) : ℤ :=
  clampInt (cround ((strength : ℚ) / 33)) 0 3

/-! ## `WifiUI` -/

/-- The trailing status icon of a row (lines 325-340). -/
inductive StatusIcon where
  | checkmark
  | circled_slash
  | lock
  | spacing
  deriving DecidableEq, Repr

/-- One row of the list as `WifiUI::refresh` builds it.  `network` is the copy the two click
handlers capture; `ssidLabel_clicked` says a `clicked` handler was connected to the label
(line 306), `editBtn` that the EDIT button exists (line 318). -/
structure Row where
  network : Network
  ssidLabel : String
  ssidLabel_enabled : Bool
  disconnected : Bool
  ssidLabel_clicked : Bool
  connecting : Bool
  editBtn : Bool
  statusIcon : StatusIcon
  strength : ℤ

/-- State of `WifiUI`: visibility of the scanning label and the rows in `list_layout`. -/
structure WifiUI where
  scanningLabel_visible : Bool
  list : List Row

/-- The body of the loop of `WifiUI::refresh` (lines 296-348) for one network. -/
def WifiUI.row (wifi : WifiManager) (network : Network) : Row where
  network := network
  ssidLabel := network.ssid
  ssidLabel_enabled := decide (network.security_type ≠ SecurityType.UNSUPPORTED)
  disconnected := decide (network.connected = ConnectedType.DISCONNECTED)
  ssidLabel_clicked := decide (network.connected = ConnectedType.DISCONNECTED)
  connecting := decide (network.connected = ConnectedType.CONNECTING)
  editBtn := wifi.isKnownConnection network.ssid
  statusIcon :=
    if network.connected = ConnectedType.CONNECTED then StatusIcon.checkmark
    else if network.security_type = SecurityType.UNSUPPORTED then StatusIcon.circled_slash
    else if network.security_type = SecurityType.WPA then StatusIcon.lock
    else StatusIcon.spacing
  strength := strengthBucket network.strength

/-- `WifiUI::refresh` (lines 283-351): the layout is cleared; an empty snapshot shows the scanning
label and returns; otherwise the snapshot's values are sorted with `std::sort` and
`compare_by_strength` and one row is built per network. -/
def WifiUI.refresh (env : Env) (wifi : WifiManager) (_ui : WifiUI) : WifiUI :=
  let is_empty := wifi.seenNetworks.isEmpty
  if is_empty then ⟨true, []⟩
  else
    let sortedNetworks := env.sort compare_by_strength wifi.values
    ⟨false, sortedNetworks.map (WifiUI.row wifi)⟩

/-! ## `WifiDetails` -/

/-- State of `WifiDetails`.  `network` is the member copy.  `page_ssid_label` and
`page_state_label` are the two labels the constructor puts on the page: they are locals of its
header block (`auto ssid_label`, `auto state_label`, lines 371-378) and nothing writes them
afterwards.  `ssid_label` and `state_label` are the texts `refresh` passes to the members of those
names, which networking.cc binds to no widget.  The remaining fields are the widgets the
constructor assigns to members: the two buttons and the two detail rows. -/
structure WifiDetails where
  network : Network
  page_ssid_label : String
  page_state_label : String
  ssid_label : String
  state_label : String
  connect_btn_enabled : Bool
  forget_btn_enabled : Bool
  signal_label : String
  security_label : String

/-- The state text of `WifiDetails::refresh` (lines 486-498). -/
def WifiDetails.stateText (c : ConnectedType) : String :=
  match c with
  | ConnectedType.DISCONNECTED => "Disconnected"
  | ConnectedType.CONNECTING => "Connecting"
  | ConnectedType.CONNECTED => "Connected"

/-- The signal text of `WifiDetails::refresh` (lines 506-522); the `QString` stays empty when no
case matches. -/
def WifiDetails.signalText (strength : ℤ) : String :=
  if strength = 0 then "None"
  else if strength = 1 then "Weak"
  else if strength = 2 then "OK"
  else if strength = 3 then "Excellent"
  else ""

/-- The security text of `WifiDetails::refresh` (lines 525-537). -/
def WifiDetails.securityText (s : SecurityType) : String :=
  match s with
  | SecurityType.OPEN => "Open"
  | SecurityType.WPA => "WPA2"
  | SecurityType.UNSUPPORTED => "Unsupported"

/-- `WifiDetails::refresh` (lines 480-540): every text and enabled state is computed from the
member `network`; only `isKnownConnection` is read from the manager.  The two labels on the page
are not among the widgets it writes. -/
def WifiDetails.refresh (wifi : WifiManager) (d : WifiDetails) : WifiDetails where
  network := d.network
  page_ssid_label := d.page_ssid_label
  page_state_label := d.page_state_label
  ssid_label := d.network.ssid
  state_label := WifiDetails.stateText d.network.connected
  connect_btn_enabled := decide (d.network.connected = ConnectedType.DISCONNECTED)
  forget_btn_enabled := wifi.isKnownConnection d.network.ssid
  signal_label := WifiDetails.signalText (strengthBucket d.network.strength)
  security_label := WifiDetails.securityText d.network.security_type

/-- `WifiDetails::view` (lines 475-478): `network = n; refresh();`. -/
def WifiDetails.view (wifi : WifiManager) (d : WifiDetails) (n : Network) : WifiDetails :=
  WifiDetails.refresh wifi { d with network := n }

/-- The constructor `WifiDetails::WifiDetails` (lines 353-473) as far as the state goes: the page
gets a label with the ssid of the initial member `network0` and a label reading "Connected"
(lines 371-378), then `refresh()` runs (line 431). -/
def WifiDetails.init (wifi : WifiManager) (network0 : Network) : WifiDetails :=
  WifiDetails.refresh wifi ⟨network0, network0.ssid, "Connected", "", "", true, true, "", ""⟩

/-! ## `AdvancedNetworking` -/

/-- State of `AdvancedNetworking`: the IP label and whether the tethering toggle is enabled. -/
structure AdvancedNetworking where
  ipLabel : String
  tetheringToggle_enabled : Bool

/-- `AdvancedNetworking::refresh` (lines 205-209). -/
def AdvancedNetworking.refresh (wifi : WifiManager) (_an : AdvancedNetworking) :
    AdvancedNetworking :=
  ⟨wifi.ipv4_address, true⟩

/-! ## `Networking` -/

/-- The widget `main_layout` (a `QStackedLayout`) currently shows: `wifiScreen` (the network
list), `detailsWidget` (the detail view) or `an` (the advanced page). -/
inductive Screen where
  | wifiScreen
  | detailsWidget
  | an
  deriving DecidableEq, Repr

/-- State of the controller `Networking`: the manager, the current widget of `main_layout`, the
three views, and three logs: the manager commands sent (`calls`), the modal dialogs opened
(`dialogs`) and the arguments `connectToNetwork` was invoked with (`connectRequests`). -/
structure Networking where
  wifi : WifiManager
  calls : List WifiCall
  dialogs : List Dialog
  connectRequests : List Network
  show_advanced : Bool
  main_layout : Screen
  wifiWidget : WifiUI
  detailsWidget : WifiDetails
  an : AdvancedNetworking

/-- A command sent to the manager: it is logged and the manager reacts. -/
def Networking.send (env : Env) (st : Networking) (c : WifiCall) : Networking :=
  { st with wifi := env.react c st.wifi, calls := st.calls ++ [c] }

/-- A modal dialog is opened: it is logged (its result is an argument of the handler). -/
def Networking.openDialog (st : Networking) (d : Dialog) : Networking :=
  { st with dialogs := st.dialogs ++ [d] }

/-- The constructor `Networking::Networking` (lines 19-81) as far as the state goes: the detail
view is constructed around its initial member `network0` (`WifiDetails.init`), the
advanced page reads the IP address and pushes the stored cellular settings (line 199), and
`main_layout` shows `wifiScreen` (line 80). -/
def Networking.init (env : Env) (wifi : WifiManager) (show_advanced : Bool) (network0 : Network)
    (roamingEnabled : Bool) (apn : String) : Networking :=
  Networking.send env
    { wifi := wifi
      calls := []
      dialogs := []
      connectRequests := []
      show_advanced := show_advanced
      main_layout := Screen.wifiScreen
      wifiWidget := ⟨true, []⟩
      detailsWidget := WifiDetails.init wifi network0
      an := ⟨wifi.ipv4_address, true⟩ }
    (WifiCall.updateGsmSettings roamingEnabled apn)

/-- `Networking::refresh` (lines 83-87). -/
def Networking.refresh (env : Env) (st : Networking) : Networking :=
  { st with
    wifiWidget := WifiUI.refresh env st.wifi st.wifiWidget
    detailsWidget := WifiDetails.refresh st.wifi st.detailsWidget
    an := AdvancedNetworking.refresh st.wifi st.an }

/-- `Networking::connectToNetwork` (lines 89-101).  `getText` is what the password dialog
returns if it is opened (the empty string on cancel). -/
def Networking.connectToNetwork (env : Env) (st : Networking) (n : Network) (getText : String) :
    Networking :=
  let st := { st with connectRequests := st.connectRequests ++ [n] }
  if st.wifi.isKnownConnection n.ssid then
    let st := st.send env (WifiCall.activateWifiConnection n.ssid)
    { st with wifiWidget := WifiUI.refresh env st.wifi st.wifiWidget }
  else if n.security_type = SecurityType.OPEN then
    st.send env (WifiCall.connect n)
  else if n.security_type = SecurityType.WPA then
    let st := st.openDialog (Dialog.getText "Enter password" n.ssid 8)
    let pass := getText
    if !pass.isEmpty then st.send env (WifiCall.connectWithPassword n pass) else st
  else st

/-- `Networking::viewNetwork` (lines 103-106). -/
def Networking.viewNetwork (st : Networking) (n : Network) : Networking :=
  { st with
    detailsWidget := WifiDetails.view st.wifi st.detailsWidget n
    main_layout := Screen.detailsWidget }

/-- `Networking::forgetNetwork` (lines 108-114).  `confirm` is what the confirmation dialog
returns. -/
def Networking.forgetNetwork (env : Env) (st : Networking) (n : Network) (confirm : Bool) :
    Networking :=
  let st := st.openDialog (Dialog.confirm n.ssid)
  if confirm then
    let st := st.send env (WifiCall.forgetConnection n.ssid)
    let st := { st with main_layout := Screen.wifiScreen }
    Networking.refresh env st
  else st

/-- `Networking::wrongPassword` (lines 116-124).  `getText` is what the password dialog returns
if it is opened. -/
def Networking.wrongPassword (env : Env) (st : Networking) (ssid : String) (getText : String) :
    Networking :=
  match st.wifi.seenNetworks.lookup ssid with
  | some n =>
    let st := st.openDialog (Dialog.getText "Wrong password" n.ssid 8)
    let pass := getText
    if !pass.isEmpty then st.send env (WifiCall.connectWithPassword n pass) else st
  | none => st

/-- The `backPress` lambdas of lines 54 and 58: `main_layout->setCurrentWidget(wifiScreen)`. -/
def Networking.backPress (st : Networking) : Networking :=
  { st with main_layout := Screen.wifiScreen }

/-- `AdvancedNetworking::toggleTethering` (lines 211-214). -/
def AdvancedNetworking.toggleTethering (env : Env) (st : Networking) (enabled : Bool) :
    Networking :=
  let st := st.send env (WifiCall.setTetheringEnabled enabled)
  { st with an := { st.an with tetheringToggle_enabled := false } }

/-- The `clicked` lambda of `connect_btn` (lines 392-397). -/
def WifiDetails.connect_btn_clicked (env : Env) (st : Networking) (getText : String) :
    Networking :=
  if st.detailsWidget.network.connected = ConnectedType.DISCONNECTED then
    let st := Networking.connectToNetwork env st st.detailsWidget.network getText
    Networking.backPress st
  else st

/-- The `clicked` lambda of `forget_btn` (lines 404-409). -/
def WifiDetails.forget_btn_clicked (env : Env) (st : Networking) (confirm : Bool) : Networking :=
  if st.wifi.isKnownConnection st.detailsWidget.network.ssid then
    let st := Networking.forgetNetwork env st st.detailsWidget.network confirm
    Networking.backPress st
  else st

/-! ## Events -/

/-- What can happen to the panel: the manager changes state on its own, emits one of its two
signals, or the user clicks a control.  A dialog a click may open comes with its result. -/
inductive Event where
  | wifiChanged (wifi : WifiManager)
  | refreshSignal
  | wrongPassword (ssid : String) (getText : String)
  | advancedSettings_clicked
  | ssidLabel_clicked (i : Nat) (getText : String)
  | editBtn_clicked (i : Nat)
  | back_btn_clicked
  | connect_btn_clicked (getText : String)
  | forget_btn_clicked (confirm : Bool)
  | an_back_clicked
  | tetheringToggle_flipped (enabled : Bool)

/-- One event.  A click reaches its handler only when the control is on the widget `main_layout`
shows, exists, is enabled and has a handler connected. -/
def Networking.step (env : Env) (st : Networking) (ev : Event) : Networking :=
  match ev with
  | Event.wifiChanged wifi => { st with wifi := wifi }
  | Event.refreshSignal => Networking.refresh env st
  | Event.wrongPassword ssid getText => Networking.wrongPassword env st ssid getText
  | Event.advancedSettings_clicked =>
    if st.main_layout = Screen.wifiScreen ∧ st.show_advanced = true then
      { st with main_layout := Screen.an }
    else st
  | Event.ssidLabel_clicked i getText =>
    if st.main_layout = Screen.wifiScreen then
      match st.wifiWidget.list[i]? with
      | some row =>
        if row.ssidLabel_enabled = true ∧ row.ssidLabel_clicked = true then
          Networking.connectToNetwork env st row.network getText
        else st
      | none => st
    else st
  | Event.editBtn_clicked i =>
    if st.main_layout = Screen.wifiScreen then
      match st.wifiWidget.list[i]? with
      | some row => if row.editBtn = true then Networking.viewNetwork st row.network else st
      | none => st
    else st
  | Event.back_btn_clicked =>
    if st.main_layout = Screen.detailsWidget then Networking.backPress st else st
  | Event.connect_btn_clicked getText =>
    if st.main_layout = Screen.detailsWidget ∧ st.detailsWidget.connect_btn_enabled = true then
      WifiDetails.connect_btn_clicked env st getText
    else st
  | Event.forget_btn_clicked confirm =>
    if st.main_layout = Screen.detailsWidget ∧ st.detailsWidget.forget_btn_enabled = true then
      WifiDetails.forget_btn_clicked env st confirm
    else st
  | Event.an_back_clicked =>
    if st.main_layout = Screen.an then Networking.backPress st else st
  | Event.tetheringToggle_flipped enabled =>
    if st.main_layout = Screen.an ∧ st.an.tetheringToggle_enabled = true then
      AdvancedNetworking.toggleTethering env st enabled
    else st

/-- A sequence of events, in order. -/
def Networking.run (env : Env) (st : Networking) (evs : List Event) : Networking :=
  evs.foldl (Networking.step env) st

/-- A sequence of scan updates, each followed by the broadcast `Networking::refresh`. -/
def Networking.refreshes (env : Env) (st : Networking) (snapshots : List WifiManager) :
    Networking :=
  snapshots.foldl (fun s wifi => Networking.refresh env { s with wifi := wifi }) st

/-! ## Predicates on states -/

/-- The detail view `d` shows entry `e` on the widgets `WifiDetails::refresh` reaches: the enabled
state of the Connect control, the signal label and the security label are those it computes for
`e`. -/
def WifiDetails.shows (d : WifiDetails) (e : Network) : Prop :=
  d.connect_btn_enabled = decide (e.connected = ConnectedType.DISCONNECTED) ∧
  d.signal_label = WifiDetails.signalText (strengthBucket e.strength) ∧
  d.security_label = WifiDetails.securityText e.security_type

/-- Every enabled SSID label of the list belongs to a network whose security type is not
UNSUPPORTED (line 304). -/
def Networking.labelsGuarded (st : Networking) : Prop :=
  ∀ row ∈ st.wifiWidget.list, row.ssidLabel_enabled = true →
    row.network.security_type ≠ SecurityType.UNSUPPORTED

/-! ## Sample data -/

/-- A WPA network nobody has connected to yet. -/
def cafe : Network :=
  ⟨"cafe", 40, ConnectedType.DISCONNECTED, SecurityType.WPA⟩

/-- An open network. -/
def lobby : Network :=
  ⟨"lobby", 70, ConnectedType.DISCONNECTED, SecurityType.OPEN⟩

/-- A network of unsupported security type whose credentials are stored. -/
def office : Network :=
  ⟨"office", 50, ConnectedType.DISCONNECTED, SecurityType.UNSUPPORTED⟩

/-- A WPA network whose credentials are stored. -/
def home : Network :=
  ⟨"home", 80, ConnectedType.DISCONNECTED, SecurityType.WPA⟩

/-- A manager that sees `cafe`, `home`, `lobby` and `office` and knows `home` and `office`. -/
def sampleWifi : WifiManager :=
  ⟨[("cafe", cafe), ("home", home), ("lobby", lobby), ("office", office)],
    fun ssid => ssid == "home" || ssid == "office", "10.0.0.2"⟩

/-- The panel right after construction over `sampleWifi`. -/
def sampleState : Networking :=
  Networking.init quietEnv sampleWifi true ⟨"", 0, ConnectedType.DISCONNECTED, SecurityType.OPEN⟩
    false ""

/-- The entry of `home` in a later scan: now connected, at strength 20. -/
def homeLater : Network :=
  ⟨"home", 20, ConnectedType.CONNECTED, SecurityType.WPA⟩

/-- A later state of the manager: `home` has become `homeLater`. -/
def laterWifi : WifiManager :=
  ⟨[("cafe", cafe), ("home", homeLater), ("lobby", lobby), ("office", office)],
    fun ssid => ssid == "home" || ssid == "office", "10.0.0.2"⟩

/-- A later state of the manager: the stored credentials of `home` are gone. -/
def forgottenWifi : WifiManager :=
  ⟨[("cafe", cafe), ("home", home), ("lobby", lobby), ("office", office)],
    fun ssid => ssid == "office", "10.0.0.2"⟩

/-- The panel after a first scan result and a click on the EDIT button of the row of `home`
(row 0: the rows are `home`, `lobby`, `office`, `cafe`). -/
def viewingHome : Networking :=
  Networking.run quietEnv sampleState [Event.refreshSignal, Event.editBtn_clicked 0]

/-- The panel after a first scan result and a click on the EDIT button of the row of `office`
(row 2). -/
def viewingOffice : Networking :=
  Networking.run quietEnv sampleState [Event.refreshSignal, Event.editBtn_clicked 2]

/-- The snapshot entry A of spec section 8: strength 90, OPEN, DISCONNECTED. -/
def entryA : Network :=
  ⟨"A", 90, ConnectedType.DISCONNECTED, SecurityType.OPEN⟩

/-- The snapshot entry B of spec section 8: strength 10, WPA, DISCONNECTED. -/
def entryB : Network :=
  ⟨"B", 10, ConnectedType.DISCONNECTED, SecurityType.WPA⟩

/-- Seventeen ssids, in the key order of the snapshot map. -/
def tiedSsids : List String :=
  ["ap00", "ap01", "ap02", "ap03", "ap04", "ap05", "ap06", "ap07", "ap08", "ap09", "ap10",
    "ap11", "ap12", "ap13", "ap14", "ap15", "ap16"]

/-- An open, disconnected network of strength 50 with the given ssid. -/
def tiedNetwork (ssid : String) : Network :=
  ⟨ssid, 50, ConnectedType.DISCONNECTED, SecurityType.OPEN⟩

/-- A snapshot of seventeen networks of equal strength, in key order. -/
def tiedWifi : WifiManager :=
  ⟨tiedSsids.map (fun ssid => (ssid, tiedNetwork ssid)), fun _ => false, ""⟩

/-! ## Strength bucket -/

theorem cround_div33 (s : Nat) : cround ((s : ℚ) / 33) = (2 * (s : ℤ) + 33) / 66 := by
  have h0 : (0 : ℚ) ≤ (s : ℚ) / 33 := by positivity
  have h1 : (s : ℚ) / 33 + 1 / 2 = (((2 * (s : ℤ) + 33 : ℤ)) : ℚ) / ((66 : ℕ) : ℚ) := by
    push_cast
    ring
  rw [cround, if_pos h0, h1, Rat.floor_intCast_div_natCast]
  rfl

theorem strengthBucket_eq (s : Nat) :
    strengthBucket s = if 3 < (2 * (s : ℤ) + 33) / 66 then 3 else (2 * (s : ℤ) + 33) / 66 := by
  have hnn : ¬ (2 * (s : ℤ) + 33) / 66 < 0 := by
    have : (0 : ℤ) ≤ (2 * (s : ℤ) + 33) / 66 := by positivity
    omega
  rw [strengthBucket, cround_div33, clampInt, if_neg hnn]

theorem strengthBucket_mono (s t : Nat) (h : s ≤ t) : strengthBucket s ≤ strengthBucket t := by
  rw [strengthBucket_eq, strengthBucket_eq]
  have hst : (2 * (s : ℤ) + 33) / 66 ≤ (2 * (t : ℤ) + 33) / 66 := by omega
  split_ifs <;> omega

theorem strengthBucket_range (s : Nat) : 0 ≤ strengthBucket s ∧ strengthBucket s ≤ 3 := by
  rw [strengthBucket_eq]
  have : (0 : ℤ) ≤ (2 * (s : ℤ) + 33) / 66 := by positivity
  split_ifs <;> omega

theorem strengthBucket_val (s : Nat) (k : ℤ) (hk : k ≤ 3)
    (h : (2 * (s : ℤ) + 33) / 66 = k) : strengthBucket s = k := by
  rw [strengthBucket_eq, h, if_neg (by omega)]

/-- C7: for all integers s ≤ t in [0,100] the bucket is monotone non-decreasing,
`strengthBucket s ≤ strengthBucket t`; both results lie in {0,1,2,3}; and the buckets of
0, 16, 17, 33, 66 and 100 are 0, 0, 1, 1, 2 and 3. -/
theorem C7_strengthBucket (s t : Nat) (hst : s ≤ t) (_ht : t ≤ 100) :
    strengthBucket s ≤ strengthBucket t ∧
    (strengthBucket s = 0 ∨ strengthBucket s = 1 ∨ strengthBucket s = 2 ∨ strengthBucket s = 3) ∧
    (strengthBucket t = 0 ∨ strengthBucket t = 1 ∨ strengthBucket t = 2 ∨ strengthBucket t = 3) ∧
    strengthBucket 0 = 0 ∧ strengthBucket 16 = 0 ∧ strengthBucket 17 = 1 ∧
    strengthBucket 33 = 1 ∧ strengthBucket 66 = 2 ∧ strengthBucket 100 = 3 := by
  have rs := strengthBucket_range s
  have rt := strengthBucket_range t
  refine ⟨strengthBucket_mono s t hst, by omega, by omega, ?_, ?_, ?_, ?_, ?_, ?_⟩
  · exact strengthBucket_val 0 0 (by decide) (by decide)
  · exact strengthBucket_val 16 0 (by decide) (by decide)
  · exact strengthBucket_val 17 1 (by decide) (by decide)
  · exact strengthBucket_val 33 1 (by decide) (by decide)
  · exact strengthBucket_val 66 2 (by decide) (by decide)
  · exact strengthBucket_val 100 3 (by decide) (by decide)

/-- C7 at s = 16, t = 17: the two sides of the first bucket boundary. -/
theorem C7_strengthBucket_witness :
    (16 ≤ 17 ∧ 17 ≤ 100) ∧ strengthBucket 16 ≤ strengthBucket 17 :=
  ⟨⟨by decide, by decide⟩, (C7_strengthBucket 16 17 (by decide) (by decide)).1⟩

/-! ## The connection flow -/

theorem isEmpty_eq_false_of_ne (p : String) (h : p ≠ "") : p.isEmpty = false := by
  cases hp : p.isEmpty
  · rfl
  · exact absurd ((String.isEmpty_iff p).1 hp) h

/-- C1: when `n.ssid` is a known connection, whatever `n.security_type` is and whatever the
password dialog would return, `Networking::connectToNetwork(n)` opens no dialog and sends the
manager exactly one command, `activateWifiConnection(n.ssid)`; no `connect` is sent. -/
theorem C1_connect_known (env : Env) (st : Networking) (n : Network) (getText : String)
    (hk : st.wifi.isKnownConnection n.ssid = true) :
    (Networking.connectToNetwork env st n getText).dialogs = st.dialogs ∧
    (Networking.connectToNetwork env st n getText).calls
      = st.calls ++ [WifiCall.activateWifiConnection n.ssid] := by
  simp [Networking.connectToNetwork, Networking.send, hk]

/-- C1 at the known network `office`, whose security type is UNSUPPORTED. -/
theorem C1_connect_known_witness :
    sampleState.wifi.isKnownConnection office.ssid = true ∧
    (Networking.connectToNetwork quietEnv sampleState office "").calls
      = sampleState.calls ++ [WifiCall.activateWifiConnection office.ssid] :=
  ⟨by decide, (C1_connect_known quietEnv sampleState office "" (by decide)).2⟩

/-- C2: when `n.ssid` is not a known connection and `n.security_type` is WPA,
`Networking::connectToNetwork(n)` opens the password dialog once; if the dialog returns the empty
string no command is sent, and if it returns a non-empty `p` (in particular one of length at least
8) exactly one command is sent, `connect(n, p)` with that same `p`. -/
theorem C2_connect_wpa (env : Env) (st : Networking) (n : Network) (getText : String)
    (hk : st.wifi.isKnownConnection n.ssid = false) (hs : n.security_type = SecurityType.WPA) :
    (Networking.connectToNetwork env st n getText).dialogs
      = st.dialogs ++ [Dialog.getText "Enter password" n.ssid 8] ∧
    (getText = "" → (Networking.connectToNetwork env st n getText).calls = st.calls) ∧
    (getText ≠ "" → (Networking.connectToNetwork env st n getText).calls
      = st.calls ++ [WifiCall.connectWithPassword n getText]) := by
  refine ⟨?_, ?_, ?_⟩
  · by_cases hp : getText.isEmpty = true <;>
      simp [Networking.connectToNetwork, Networking.send, Networking.openDialog, hk, hs, hp]
  · intro hp
    subst hp
    have he : "".isEmpty = true := by decide
    simp [Networking.connectToNetwork, Networking.send, Networking.openDialog, hk, hs, he]
  · intro hp
    have := isEmpty_eq_false_of_ne getText hp
    simp [Networking.connectToNetwork, Networking.send, Networking.openDialog, hk, hs, this]

/-- C2 at the unknown WPA network `cafe` with a passphrase of twelve characters. -/
theorem C2_connect_wpa_witness :
    (sampleState.wifi.isKnownConnection cafe.ssid = false ∧
      cafe.security_type = SecurityType.WPA ∧ "espresso1234" ≠ "") ∧
    (Networking.connectToNetwork quietEnv sampleState cafe "espresso1234").calls
      = sampleState.calls ++ [WifiCall.connectWithPassword cafe "espresso1234"] :=
  ⟨⟨by decide, by decide, by decide⟩,
    (C2_connect_wpa quietEnv sampleState cafe "espresso1234" (by decide) (by decide)).2.2
      (by decide)⟩

/-- C3: when `n.ssid` is not a known connection and `n.security_type` is OPEN,
`Networking::connectToNetwork(n)` sends the manager exactly one command, `connect(n)` without a
credential, and opens no dialog. -/
theorem C3_connect_open (env : Env) (st : Networking) (n : Network) (getText : String)
    (hk : st.wifi.isKnownConnection n.ssid = false) (hs : n.security_type = SecurityType.OPEN) :
    (Networking.connectToNetwork env st n getText).calls = st.calls ++ [WifiCall.connect n] ∧
    (Networking.connectToNetwork env st n getText).dialogs = st.dialogs := by
  simp [Networking.connectToNetwork, Networking.send, hk, hs]

/-- C3 at the unknown open network `lobby`. -/
theorem C3_connect_open_witness :
    (sampleState.wifi.isKnownConnection lobby.ssid = false ∧
      lobby.security_type = SecurityType.OPEN) ∧
    (Networking.connectToNetwork quietEnv sampleState lobby "").calls
      = sampleState.calls ++ [WifiCall.connect lobby] :=
  ⟨⟨by decide, by decide⟩, (C3_connect_open quietEnv sampleState lobby "" (by decide) (by decide)).1⟩

/-- C4: `Networking::forgetNetwork(n)` opens the confirmation dialog; when it is declined no
command is sent and `main_layout` keeps its widget (nothing but the dialog log changes); when it is
accepted exactly one command is sent, `forgetConnection(n.ssid)`, then `main_layout` is set to
`wifiScreen`, then `Networking::refresh` runs. -/
theorem C4_forgetNetwork (env : Env) (st : Networking) (n : Network) :
    (Networking.forgetNetwork env st n false = st.openDialog (Dialog.confirm n.ssid) ∧
      (Networking.forgetNetwork env st n false).calls = st.calls ∧
      (Networking.forgetNetwork env st n false).main_layout = st.main_layout) ∧
    (Networking.forgetNetwork env st n true
        = Networking.refresh env
            { Networking.send env (st.openDialog (Dialog.confirm n.ssid))
                (WifiCall.forgetConnection n.ssid) with main_layout := Screen.wifiScreen } ∧
      (Networking.forgetNetwork env st n true).calls
        = st.calls ++ [WifiCall.forgetConnection n.ssid] ∧
      (Networking.forgetNetwork env st n true).main_layout = Screen.wifiScreen) := by
  simp [Networking.forgetNetwork, Networking.send, Networking.openDialog, Networking.refresh]

theorem lookup_eq_none_of_not_key (ssid : String) (l : List (String × Network))
    (h : ssid ∉ l.map Prod.fst) : l.lookup ssid = none := by
  induction l with
  | nil => rfl
  | cons p l ih =>
    obtain ⟨k, v⟩ := p
    simp only [List.map_cons, List.mem_cons, not_or] at h
    have hk : (ssid == k) = false := by simpa using h.1
    simp [List.lookup, hk, ih h.2]

theorem lookup_eq_some_of_key (ssid : String) (l : List (String × Network))
    (h : ssid ∈ l.map Prod.fst) : ∃ n, (ssid, n) ∈ l ∧ l.lookup ssid = some n := by
  induction l with
  | nil => simp at h
  | cons p l ih =>
    obtain ⟨k, v⟩ := p
    by_cases hk : ssid = k
    · subst hk
      exact ⟨v, by simp, by simp [List.lookup]⟩
    · have hmem : ssid ∈ l.map Prod.fst := by
        simp only [List.map_cons, List.mem_cons] at h
        rcases h with h | h
        · exact absurd h hk
        · exact h
      obtain ⟨n, hn, hl⟩ := ih hmem
      have hb : (ssid == k) = false := by simpa using hk
      exact ⟨n, List.mem_cons_of_mem _ hn, by simp [List.lookup, hb, hl]⟩

/-- C5: for an ssid that is not a key of `seenNetworks`, `Networking::wrongPassword(ssid)` returns
the state as it was: no dialog, no change of `main_layout`, no command.  For an ssid that is a key,
with entry `n`, the password dialog is opened once, `main_layout` is unchanged, and the commands
sent are none when the dialog returns the empty string and the single `connect(n, pass)` when it
returns a non-empty `pass`. -/
theorem C5_wrongPassword (env : Env) (st : Networking) (ssid : String) (getText : String) :
    (ssid ∉ st.wifi.seenNetworks.map Prod.fst →
      Networking.wrongPassword env st ssid getText = st) ∧
    (ssid ∈ st.wifi.seenNetworks.map Prod.fst →
      ∃ n, (ssid, n) ∈ st.wifi.seenNetworks ∧
        (Networking.wrongPassword env st ssid getText).dialogs
          = st.dialogs ++ [Dialog.getText "Wrong password" n.ssid 8] ∧
        (Networking.wrongPassword env st ssid getText).main_layout = st.main_layout ∧
        (Networking.wrongPassword env st ssid getText).calls
          = if getText = "" then st.calls
            else st.calls ++ [WifiCall.connectWithPassword n getText]) := by
  constructor
  · intro h
    simp [Networking.wrongPassword, lookup_eq_none_of_not_key ssid _ h]
  · intro h
    obtain ⟨n, hn, hl⟩ := lookup_eq_some_of_key ssid _ h
    refine ⟨n, hn, ?_⟩
    by_cases hp : getText = ""
    · subst hp
      have he : "".isEmpty = true := by decide
      simp [Networking.wrongPassword, hl, Networking.openDialog, he]
    · have he := isEmpty_eq_false_of_ne getText hp
      simp [Networking.wrongPassword, hl, Networking.openDialog, Networking.send, he, hp]

/-! ## Row order -/

theorem notBefore_trans {comp : Network → Network → Bool} (h : StrictWeakOrder comp)
    (a b c : Network) (hab : notBefore comp a b) (hbc : notBefore comp b c) :
    notBefore comp a c := by
  unfold notBefore at *
  cases hca : comp c a
  · rfl
  · exfalso
    cases h1 : comp a b
    · cases h2 : comp b c
      · have hac := (h.equiv_trans a b c h1 hab h2 hbc).2
        rw [hca] at hac
        cases hac
      · have hba := h.trans b c a h2 hca
        rw [hab] at hba
        cases hba
    · have hcb := h.trans c a b hca h1
      rw [hbc] at hcb
      cases hcb

/-! ### Every step of the sort rearranges -/

theorem set_cons_perm (x b : Network) (xs : List Network) (j : Nat) (h : xs[j]? = some b) :
    List.Perm (b :: xs.set j x) (x :: xs) := by
  induction xs generalizing j with
  | nil => simp at h
  | cons y ys ih =>
    cases j with
    | zero =>
      simp only [List.getElem?_cons_zero, Option.some.injEq] at h
      subst h
      exact List.Perm.swap _ _ _
    | succ j =>
      simp only [List.getElem?_cons_succ] at h
      simp only [List.set_cons_succ]
      exact (List.Perm.swap _ _ _).trans (((ih j h).cons y).trans (List.Perm.swap _ _ _))

theorem set_set_perm (a b : Network) (l : List Network) (i j : Nat)
    (hi : l[i]? = some a) (hj : l[j]? = some b) : List.Perm ((l.set i b).set j a) l := by
  induction l generalizing i j with
  | nil => simp at hi
  | cons x xs ih =>
    cases i with
    | zero =>
      simp only [List.getElem?_cons_zero, Option.some.injEq] at hi
      subst hi
      cases j with
      | zero =>
        simp only [List.getElem?_cons_zero, Option.some.injEq] at hj
        subst hj
        simp
      | succ j =>
        simp only [List.getElem?_cons_succ] at hj
        simp only [List.set_cons_zero, List.set_cons_succ]
        exact set_cons_perm x b xs j hj
    | succ i =>
      simp only [List.getElem?_cons_succ] at hi
      cases j with
      | zero =>
        simp only [List.getElem?_cons_zero, Option.some.injEq] at hj
        subst hj
        simp only [List.set_cons_zero, List.set_cons_succ]
        exact set_cons_perm x a xs i hi
      | succ j =>
        simp only [List.getElem?_cons_succ] at hj
        simp only [List.set_cons_succ]
        exact (ih i j hi hj).cons x

theorem iter_swap_perm (l : List Network) (i j : Nat) : List.Perm (iter_swap l i j) l := by
  unfold iter_swap
  cases hi : l[i]? with
  | none => exact List.Perm.refl l
  | some a =>
    cases hj : l[j]? with
    | none => exact List.Perm.refl l
    | some b => exact set_set_perm a b l i j hi hj

theorem move_median_to_first_perm (comp : Network → Network → Bool) (l : List Network)
    (result a b c : Nat) : List.Perm (move_median_to_first comp l result a b c) l := by
  unfold move_median_to_first
  split_ifs <;> exact iter_swap_perm l _ _

theorem unguarded_partition_perm (comp : Network → Network → Bool) (fuel : Nat)
    (l : List Network) (first last pivot : Nat) :
    List.Perm (unguarded_partition comp fuel l first last pivot).1 l := by
  induction fuel generalizing l first last with
  | zero => exact List.Perm.refl l
  | succ fuel ih =>
    simp only [unguarded_partition]
    split_ifs
    · exact (ih _ _ _).trans (iter_swap_perm l _ _)
    · exact List.Perm.refl l

theorem unguarded_partition_pivot_perm (comp : Network → Network → Bool) (l : List Network)
    (first last : Nat) : List.Perm (unguarded_partition_pivot comp l first last).1 l := by
  unfold unguarded_partition_pivot
  exact (unguarded_partition_perm comp _ _ _ _ _).trans (move_median_to_first_perm comp l _ _ _ _)

theorem push_heap_perm (comp : Network → Network → Bool) (fuel : Nat) (l : List Network)
    (first holeIndex topIndex : Nat) :
    List.Perm (push_heap comp fuel l first holeIndex topIndex) l := by
  induction fuel generalizing l holeIndex with
  | zero => exact List.Perm.refl l
  | succ fuel ih =>
    simp only [push_heap]
    split_ifs
    · exact (ih _ _).trans (iter_swap_perm l _ _)
    · exact List.Perm.refl l

theorem adjust_heap_down_perm (comp : Network → Network → Bool) (fuel : Nat) (l : List Network)
    (first holeIndex len : Nat) :
    List.Perm (adjust_heap_down comp fuel l first holeIndex len).1 l := by
  induction fuel generalizing l holeIndex with
  | zero => exact List.Perm.refl l
  | succ fuel ih =>
    simp only [adjust_heap_down]
    split_ifs
    · exact (ih _ _).trans (iter_swap_perm l _ _)
    · exact (ih _ _).trans (iter_swap_perm l _ _)
    · exact List.Perm.refl l

theorem adjust_heap_perm (comp : Network → Network → Bool) (l : List Network)
    (first holeIndex len : Nat) : List.Perm (adjust_heap comp l first holeIndex len) l := by
  unfold adjust_heap
  simp only
  split_ifs
  · exact ((push_heap_perm comp _ _ _ _ _).trans (iter_swap_perm _ _ _)).trans
      (adjust_heap_down_perm comp _ l _ _ _)
  · exact (push_heap_perm comp _ _ _ _ _).trans (adjust_heap_down_perm comp _ l _ _ _)

theorem pop_heap_perm (comp : Network → Network → Bool) (l : List Network)
    (first last result : Nat) : List.Perm (pop_heap comp l first last result) l :=
  (adjust_heap_perm comp _ _ _ _).trans (iter_swap_perm l _ _)

theorem make_heap_loop_perm (comp : Network → Network → Bool) (first len parent : Nat)
    (l : List Network) : List.Perm (make_heap_loop comp first len parent l) l := by
  induction parent generalizing l with
  | zero => exact adjust_heap_perm comp l _ _ _
  | succ parent ih => exact (ih _).trans (adjust_heap_perm comp l _ _ _)

theorem make_heap_perm (comp : Network → Network → Bool) (l : List Network) (first last : Nat) :
    List.Perm (make_heap comp l first last) l := by
  unfold make_heap
  split_ifs
  · exact List.Perm.refl l
  · exact make_heap_loop_perm comp _ _ _ l

theorem heap_select_loop_perm (comp : Network → Network → Bool) (first middle k i : Nat)
    (l : List Network) : List.Perm (heap_select_loop comp first middle k i l) l := by
  induction k generalizing i l with
  | zero => exact List.Perm.refl l
  | succ k ih =>
    simp only [heap_select_loop]
    split_ifs
    · exact (ih _ _).trans (pop_heap_perm comp l _ _ _)
    · exact ih _ _

theorem sort_heap_perm (comp : Network → Network → Bool) (first n : Nat) (l : List Network) :
    List.Perm (sort_heap comp first n l) l := by
  induction n generalizing l with
  | zero => exact List.Perm.refl l
  | succ n ih =>
    simp only [sort_heap]
    split_ifs
    · exact (ih _).trans (pop_heap_perm comp l _ _ _)
    · exact List.Perm.refl l

theorem partial_sort_perm (comp : Network → Network → Bool) (l : List Network)
    (first middle last : Nat) : List.Perm (partial_sort comp l first middle last) l :=
  (sort_heap_perm comp _ _ _).trans
    ((heap_select_loop_perm comp _ _ _ _ _).trans (make_heap_perm comp l _ _))

theorem introsort_loop_perm (comp : Network → Network → Bool) (depth_limit : Nat)
    (l : List Network) (first last : Nat) :
    List.Perm (introsort_loop comp depth_limit l first last) l := by
  induction depth_limit generalizing l first last with
  | zero =>
    simp only [introsort_loop]
    split_ifs
    · exact partial_sort_perm comp l _ _ _
    · exact List.Perm.refl l
  | succ depth_limit ih =>
    simp only [introsort_loop]
    split_ifs
    · exact (ih _ _ _).trans ((ih _ _ _).trans (unguarded_partition_pivot_perm comp l _ _))
    · exact List.Perm.refl l

theorem unguarded_linear_insert_perm (comp : Network → Network → Bool) (val : Network)
    (before : List Network) :
    List.Perm (unguarded_linear_insert comp val before) (val :: before) := by
  induction before with
  | nil => exact List.Perm.refl _
  | cons next before ih =>
    simp only [unguarded_linear_insert]
    split_ifs
    · exact (ih.cons next).trans (List.Perm.swap _ _ _)
    · exact List.Perm.refl _

theorem linear_insert_reverse_perm (comp : Network → Network → Bool) (val : Network)
    (done : List Network) :
    List.Perm (unguarded_linear_insert comp val done.reverse).reverse (done ++ [val]) := by
  refine (List.reverse_perm _).trans ((unguarded_linear_insert_perm comp val _).trans ?_)
  exact ((List.reverse_perm done).cons val).trans (List.perm_append_singleton val done).symm

theorem insertion_sort_loop_perm (comp : Network → Network → Bool) (rest done : List Network) :
    List.Perm (insertion_sort_loop comp done rest) (done ++ rest) := by
  induction rest generalizing done with
  | nil => simp [insertion_sort_loop]
  | cons val rest ih =>
    simp only [insertion_sort_loop]
    refine (ih _).trans ?_
    have hstep : List.Perm
        (match done with
          | [] => [val]
          | first :: _ =>
            if comp val first then val :: done
            else (unguarded_linear_insert comp val done.reverse).reverse)
        (done ++ [val]) := by
      cases done with
      | nil => exact List.Perm.refl _
      | cons first tl =>
        simp only
        split_ifs
        · exact (List.perm_append_singleton val (first :: tl)).symm
        · exact linear_insert_reverse_perm comp val (first :: tl)
    have := hstep.append_right rest
    simpa using this

theorem insertion_sort_perm (comp : Network → Network → Bool) (l : List Network) :
    List.Perm (insertion_sort comp l) l := by
  cases l with
  | nil => exact List.Perm.refl _
  | cons x rest => exact insertion_sort_loop_perm comp rest [x]

theorem unguarded_insertion_sort_perm (comp : Network → Network → Bool)
    (rest done : List Network) :
    List.Perm (unguarded_insertion_sort comp done rest) (done ++ rest) := by
  induction rest generalizing done with
  | nil => simp [unguarded_insertion_sort]
  | cons val rest ih =>
    simp only [unguarded_insertion_sort]
    refine (ih _).trans ?_
    have := (linear_insert_reverse_perm comp val done).append_right rest
    simpa using this

theorem final_insertion_sort_perm (comp : Network → Network → Bool) (l : List Network) :
    List.Perm (final_insertion_sort comp l) l := by
  unfold final_insertion_sort
  split_ifs
  · refine (unguarded_insertion_sort_perm comp _ _).trans ?_
    have := (insertion_sort_perm comp (l.take 16)).append_right (l.drop 16)
    simpa using this
  · exact insertion_sort_perm comp l

theorem std_sort_perm (comp : Network → Network → Bool) (l : List Network) :
    List.Perm (std_sort comp l) l := by
  unfold std_sort
  split_ifs
  · exact List.Perm.refl l
  · exact (final_insertion_sort_perm comp _).trans (introsort_loop_perm comp _ l _ _)

/-! ### The final insertion sort orders the range -/

theorem comp_asymm {comp : Network → Network → Bool} (h : StrictWeakOrder comp) (a b : Network)
    (hab : comp a b = true) : comp b a = false := by
  cases hba : comp b a
  · rfl
  · have hcyc := h.trans a b a hab hba
    rw [h.irrefl] at hcyc
    cases hcyc

theorem unguarded_linear_insert_sorted {comp : Network → Network → Bool}
    (h : StrictWeakOrder comp) (val : Network) (before : List Network)
    (hs : List.Pairwise (fun a b => comp a b = false) before) :
    List.Pairwise (fun a b => comp a b = false) (unguarded_linear_insert comp val before) := by
  induction before with
  | nil => simp [unguarded_linear_insert]
  | cons next before ih =>
    rw [List.pairwise_cons] at hs
    simp only [unguarded_linear_insert]
    split_ifs with hc
    · rw [List.pairwise_cons]
      refine ⟨?_, ih hs.2⟩
      intro x hx
      have hx2 : x ∈ val :: before := (unguarded_linear_insert_perm comp val before).subset hx
      rcases List.mem_cons.1 hx2 with rfl | hx3
      · exact comp_asymm h _ _ hc
      · exact hs.1 x hx3
    · have hvn : comp val next = false := by simpa using hc
      rw [List.pairwise_cons]
      refine ⟨?_, List.pairwise_cons.2 hs⟩
      intro x hx
      rcases List.mem_cons.1 hx with rfl | hx3
      · exact hvn
      · exact notBefore_trans h x next val (hs.1 x hx3) hvn

theorem linear_insert_reverse_sorted {comp : Network → Network → Bool}
    (h : StrictWeakOrder comp) (val : Network) (done : List Network)
    (hs : List.Pairwise (fun a b => comp b a = false) done) :
    List.Pairwise (fun a b => comp b a = false)
      (unguarded_linear_insert comp val done.reverse).reverse := by
  rw [List.pairwise_reverse]
  apply unguarded_linear_insert_sorted h
  rw [List.pairwise_reverse]
  exact hs

theorem insertion_sort_loop_sorted {comp : Network → Network → Bool}
    (h : StrictWeakOrder comp) (rest done : List Network)
    (hs : List.Pairwise (fun a b => comp b a = false) done) :
    List.Pairwise (fun a b => comp b a = false) (insertion_sort_loop comp done rest) := by
  induction rest generalizing done with
  | nil => exact hs
  | cons val rest ih =>
    simp only [insertion_sort_loop]
    apply ih
    cases done with
    | nil => simp
    | cons first tl =>
      simp only
      split_ifs with hc
      · rw [List.pairwise_cons]
        refine ⟨?_, hs⟩
        intro b hb
        cases hbv : comp b val
        · rfl
        · exfalso
          have hbf := h.trans b val first hbv hc
          rcases List.mem_cons.1 hb with rfl | hb2
          · rw [h.irrefl] at hbf
            cases hbf
          · have := (List.pairwise_cons.1 hs).1 b hb2
            rw [this] at hbf
            cases hbf
      · exact linear_insert_reverse_sorted h val (first :: tl) hs

theorem insertion_sort_sorted {comp : Network → Network → Bool} (h : StrictWeakOrder comp)
    (l : List Network) :
    List.Pairwise (fun a b => comp b a = false) (insertion_sort comp l) := by
  cases l with
  | nil => exact List.Pairwise.nil
  | cons x rest => exact insertion_sort_loop_sorted h rest [x] (List.pairwise_singleton _ x)

theorem unguarded_insertion_sort_sorted {comp : Network → Network → Bool}
    (h : StrictWeakOrder comp) (rest done : List Network)
    (hs : List.Pairwise (fun a b => comp b a = false) done) :
    List.Pairwise (fun a b => comp b a = false) (unguarded_insertion_sort comp done rest) := by
  induction rest generalizing done with
  | nil => exact hs
  | cons val rest ih =>
    simp only [unguarded_insertion_sort]
    exact ih _ (linear_insert_reverse_sorted h val done hs)

theorem final_insertion_sort_sorted {comp : Network → Network → Bool}
    (h : StrictWeakOrder comp) (l : List Network) :
    List.Pairwise (fun a b => comp b a = false) (final_insertion_sort comp l) := by
  unfold final_insertion_sort
  split_ifs
  · exact unguarded_insertion_sort_sorted h _ _ (insertion_sort_sorted h _)
  · exact insertion_sort_sorted h l

/-- The model of `std::sort` meets the contract the C++ standard gives `std::sort`. -/
theorem std_sort_contract : StdSortContract std_sort := by
  intro comp xs
  refine ⟨std_sort_perm comp xs, ?_⟩
  intro h
  unfold std_sort
  split_ifs with h0
  · have : xs = [] := List.length_eq_zero.1 h0
    subst this
    exact List.Pairwise.nil
  · exact final_insertion_sort_sorted h _

/-! ### The loop counters are high enough -/

theorem compAt_outside (comp : Network → Network → Bool) (l : List Network) (i j : Nat)
    (h : l.length ≤ i) : compAt comp l i j = false := by
  unfold compAt
  rw [List.getElem?_eq_none h]

/-- More fuel than the distance to the end of the list does not change `scan_up`. -/
theorem scan_up_fuel (comp : Network → Network → Bool) (l : List Network) (pivot fuel k : Nat)
    (first : Nat) (h : l.length < first + fuel) :
    scan_up comp l pivot (fuel + k) first = scan_up comp l pivot fuel first := by
  induction fuel generalizing first with
  | zero =>
    have hout := compAt_outside comp l first pivot (by omega)
    cases k with
    | zero => rfl
    | succ k => simp [scan_up, hout]
  | succ fuel ih =>
    rw [show fuel + 1 + k = (fuel + k) + 1 by omega]
    simp only [scan_up]
    split_ifs
    · exact ih (first + 1) (by omega)
    · rfl

theorem scan_up_ge (comp : Network → Network → Bool) (l : List Network) (pivot fuel first : Nat) :
    first ≤ scan_up comp l pivot fuel first := by
  induction fuel generalizing first with
  | zero => exact Nat.le_refl _
  | succ fuel ih =>
    simp only [scan_up]
    split_ifs
    · exact Nat.le_trans (Nat.le_succ first) (ih (first + 1))
    · exact Nat.le_refl _

theorem scan_down_le (comp : Network → Network → Bool) (l : List Network) (pivot last : Nat) :
    scan_down comp l pivot last ≤ last := by
  induction last with
  | zero => exact Nat.le_refl _
  | succ last ih =>
    simp only [scan_down]
    split_ifs
    · exact Nat.le_trans ih (Nat.le_succ last)
    · exact Nat.le_refl _

/-- More fuel than the width of the range does not change `unguarded_partition`. -/
theorem unguarded_partition_fuel (comp : Network → Network → Bool) (fuel k : Nat)
    (l : List Network) (first last pivot : Nat) (h : last ≤ first + fuel) :
    unguarded_partition comp (fuel + 1 + k) l first last pivot
      = unguarded_partition comp (fuel + 1) l first last pivot := by
  induction fuel generalizing l first last with
  | zero =>
    have h1 := scan_up_ge comp l pivot (l.length + 1) first
    have h2 := scan_down_le comp l pivot (last - 1)
    rw [show 0 + 1 + k = k + 1 by omega]
    simp only [unguarded_partition]
    rw [if_neg (by omega), if_neg (by omega)]
  | succ fuel ih =>
    have h1 := scan_up_ge comp l pivot (l.length + 1) first
    have h2 := scan_down_le comp l pivot (last - 1)
    rw [show fuel + 1 + 1 + k = (fuel + 1 + k) + 1 by omega]
    rw [unguarded_partition, unguarded_partition]
    split_ifs
    · exact ih _ _ _ (by omega)
    · rfl

/-- More fuel than the height of the hole does not change `push_heap`. -/
theorem push_heap_fuel (comp : Network → Network → Bool) (fuel k : Nat) (l : List Network)
    (first holeIndex topIndex : Nat) (h : holeIndex < fuel) :
    push_heap comp (fuel + k) l first holeIndex topIndex
      = push_heap comp fuel l first holeIndex topIndex := by
  induction fuel generalizing l holeIndex with
  | zero => omega
  | succ fuel ih =>
    rw [show fuel + 1 + k = (fuel + k) + 1 by omega, push_heap, push_heap]
    split_ifs with hc
    · exact ih _ _ (by omega)
    · rfl

/-- More fuel than the distance from the hole to the end of the heap does not change
`adjust_heap_down`. -/
theorem adjust_heap_down_fuel (comp : Network → Network → Bool) (fuel k : Nat)
    (l : List Network) (first holeIndex len : Nat) (h : len < holeIndex + fuel) :
    adjust_heap_down comp (fuel + k) l first holeIndex len
      = adjust_heap_down comp fuel l first holeIndex len := by
  induction fuel generalizing l holeIndex with
  | zero =>
    cases k with
    | zero => rfl
    | succ k =>
      simp only [Nat.zero_add, adjust_heap_down]
      rw [if_neg (by omega)]
  | succ fuel ih =>
    rw [show fuel + 1 + k = (fuel + k) + 1 by omega]
    simp only [adjust_heap_down]
    split_ifs
    · exact ih _ _ (by omega)
    · exact ih _ _ (by omega)
    · rfl

theorem lg_loop_eq_log2 (fuel n : Nat) (h : n ≤ fuel) : lg_loop fuel n = Nat.log2 n := by
  induction fuel generalizing n with
  | zero =>
    have hn : n = 0 := by omega
    subst hn
    rw [Nat.log2]
    rfl
  | succ fuel ih =>
    rw [Nat.log2]
    simp only [lg_loop]
    split_ifs with h2
    · rw [ih (n / 2) (by omega)]
    · rfl

/-- The function `lg` is the binary logarithm rounded down, as `__lg` is. -/
theorem lg_eq_log2 (n : Nat) : lg n = Nat.log2 n :=
  lg_loop_eq_log2 n n (Nat.le_refl n)

/-- At its call site `scan_up` gets fuel `l.length + 1`: no larger counter changes the result. -/
theorem scan_up_enough (comp : Network → Network → Bool) (l : List Network)
    (pivot k first : Nat) :
    scan_up comp l pivot (l.length + 1 + k) first = scan_up comp l pivot (l.length + 1) first :=
  scan_up_fuel comp l pivot (l.length + 1) k first (by omega)

/-- At its call site `unguarded_partition` gets fuel `last + 1`: no larger counter changes the
result. -/
theorem unguarded_partition_enough (comp : Network → Network → Bool) (l : List Network)
    (k first last : Nat) :
    unguarded_partition comp (last + 1 + k) l (first + 1) last first
      = unguarded_partition comp (last + 1) l (first + 1) last first :=
  unguarded_partition_fuel comp last k l (first + 1) last first (by omega)

/-- At its call sites `push_heap` gets fuel `holeIndex + 1`: no larger counter changes the
result. -/
theorem push_heap_enough (comp : Network → Network → Bool) (l : List Network)
    (k first holeIndex topIndex : Nat) :
    push_heap comp (holeIndex + 1 + k) l first holeIndex topIndex
      = push_heap comp (holeIndex + 1) l first holeIndex topIndex :=
  push_heap_fuel comp (holeIndex + 1) k l first holeIndex topIndex (by omega)

/-- At its call site `adjust_heap_down` gets fuel `len + 1`: no larger counter changes the
result. -/
theorem adjust_heap_down_enough (comp : Network → Network → Bool) (l : List Network)
    (k first holeIndex len : Nat) :
    adjust_heap_down comp (len + 1 + k) l first holeIndex len
      = adjust_heap_down comp (len + 1) l first holeIndex len :=
  adjust_heap_down_fuel comp (len + 1) k l first holeIndex len (by omega)


theorem quietEnv_contract : StdSortContract quietEnv.sort :=
  std_sort_contract

/-- The comparison `compare_by_strength` is a strict weak ordering, as `std::sort` requires. -/
theorem compare_by_strength_swo : StrictWeakOrder compare_by_strength := by
  refine ⟨?_, ?_, ?_⟩
  · intro a
    simp [compare_by_strength]
  · intro a b c hab hbc
    simp only [compare_by_strength, decide_eq_true_eq] at *
    omega
  · intro a b c h1 h2 h3 h4
    simp only [compare_by_strength, decide_eq_false_iff_not] at *
    omega

theorem map_network_row (wifi : WifiManager) (xs : List Network) :
    (xs.map (WifiUI.row wifi)).map Row.network = xs := by
  induction xs with
  | nil => rfl
  | cons x xs ih =>
    rw [List.map_cons, List.map_cons, ih]
    rfl

theorem refresh_networks_of_ne_nil (env : Env) (wifi : WifiManager) (ui : WifiUI)
    (h : wifi.seenNetworks ≠ []) :
    (WifiUI.refresh env wifi ui).list.map Row.network
      = env.sort compare_by_strength wifi.values := by
  have he : wifi.seenNetworks.isEmpty = false := by
    cases hs : wifi.seenNetworks with
    | nil => exact absurd hs h
    | cons p l => rfl
  simp only [WifiUI.refresh, he]
  exact map_network_row wifi _

theorem refresh_networks_of_nil (env : Env) (wifi : WifiManager) (ui : WifiUI)
    (h : wifi.seenNetworks = []) :
    (WifiUI.refresh env wifi ui).list.map Row.network = [] ∧ wifi.values = [] := by
  simp [WifiUI.refresh, WifiManager.values, h]

theorem strength_le_of_not_compare (a b : Network) (h : compare_by_strength b a = false) :
    b.strength ≤ a.strength := by
  simp only [compare_by_strength, decide_eq_false_iff_not] at h
  omega

theorem sorted_pair (sort : (Network → Network → Bool) → List Network → List Network)
    (h : StdSortContract sort) : sort compare_by_strength [entryA, entryB] = [entryA, entryB] := by
  obtain ⟨hperm, hsorted⟩ := h compare_by_strength [entryA, entryB]
  have hpw := hsorted compare_by_strength_swo
  have hlen := hperm.length_eq
  generalize sort compare_by_strength [entryA, entryB] = l at hperm hpw hlen
  match l, hlen with
  | [x, y], _ =>
    have hx : x ∈ [entryA, entryB] := hperm.subset (by simp)
    have hy : y ∈ [entryA, entryB] := hperm.subset (by simp)
    have hnd : [x, y].Nodup := hperm.nodup_iff.2 (by decide)
    have hxy : x ≠ y := by
      intro e
      subst e
      simp at hnd
    have hord : compare_by_strength y x = false := by
      simpa using hpw
    simp only [List.mem_cons, List.mem_singleton, List.not_mem_nil, or_false] at hx hy
    rcases hx with rfl | rfl <;> rcases hy with rfl | rfl
    · exact absurd rfl hxy
    · rfl
    · exact absurd hord (by decide)
    · exact absurd rfl hxy

theorem refresh_networks_of_snapshot (env : Env) (wifi wifi2 : WifiManager) (ui ui2 : WifiUI)
    (h : wifi2.seenNetworks = wifi.seenNetworks) :
    (WifiUI.refresh env wifi2 ui2).list.map Row.network
      = (WifiUI.refresh env wifi ui).list.map Row.network := by
  by_cases hn : wifi.seenNetworks = []
  · rw [(refresh_networks_of_nil env wifi ui hn).1,
      (refresh_networks_of_nil env wifi2 ui2 (h.trans hn)).1]
  · rw [refresh_networks_of_ne_nil env wifi ui hn,
      refresh_networks_of_ne_nil env wifi2 ui2 (by rw [h]; exact hn)]
    simp only [WifiManager.values, h]

/-- C6 (amended): for every `std::sort` meeting its contract and every snapshot, the networks of
the rows `WifiUI::refresh` builds are a permutation of the snapshot's values, non-increasing by
strength; the row order depends on the snapshot alone, not on the list shown before nor on the
rest of the manager's state, so two refreshes on the same snapshot give the same row order; and
the snapshot of A (strength 90) and B (strength 10) gives the row order [A, B].  The order of
entries of equal strength is left to `std::sort`. -/
theorem C6_refresh_order (env : Env) (hsort : StdSortContract env.sort) (wifi : WifiManager)
    (ui : WifiUI) :
    List.Perm ((WifiUI.refresh env wifi ui).list.map Row.network) wifi.values ∧
    List.Pairwise (fun a b => b.strength ≤ a.strength)
      ((WifiUI.refresh env wifi ui).list.map Row.network) ∧
    (∀ (wifi2 : WifiManager) (ui2 : WifiUI), wifi2.seenNetworks = wifi.seenNetworks →
      (WifiUI.refresh env wifi2 ui2).list.map Row.network
        = (WifiUI.refresh env wifi ui).list.map Row.network) ∧
    (∀ (known : String → Bool) (ip : String),
      (WifiUI.refresh env ⟨[("A", entryA), ("B", entryB)], known, ip⟩ ui).list.map Row.network
        = [entryA, entryB]) := by
  refine ⟨?_, ?_, ?_, ?_⟩
  · by_cases h : wifi.seenNetworks = []
    · obtain ⟨h1, h2⟩ := refresh_networks_of_nil env wifi ui h
      rw [h1, h2]
    · rw [refresh_networks_of_ne_nil env wifi ui h]
      exact (hsort compare_by_strength wifi.values).1
  · by_cases h : wifi.seenNetworks = []
    · rw [(refresh_networks_of_nil env wifi ui h).1]
      exact List.Pairwise.nil
    · rw [refresh_networks_of_ne_nil env wifi ui h]
      exact ((hsort compare_by_strength wifi.values).2 compare_by_strength_swo).imp
        (fun {a b} hab => strength_le_of_not_compare a b hab)
  · intro wifi2 ui2 h
    exact refresh_networks_of_snapshot env wifi wifi2 ui ui2 h
  · intro known ip
    rw [refresh_networks_of_ne_nil env _ ui (by simp)]
    exact sorted_pair env.sort hsort

/-- C6 (amended) at `std_sort`, which meets the contract, on the snapshot of `sampleWifi`. -/
theorem C6_refresh_order_witness :
    StdSortContract quietEnv.sort ∧
    (WifiUI.refresh quietEnv sampleWifi ⟨true, []⟩).list.map Row.network
      = [home, lobby, office, cafe] ∧
    List.Perm ((WifiUI.refresh quietEnv sampleWifi ⟨true, []⟩).list.map Row.network)
      sampleWifi.values :=
  ⟨quietEnv_contract, by decide,
    (C6_refresh_order quietEnv quietEnv_contract sampleWifi ⟨true, []⟩).1⟩

/-- C6 as stated fails: `std::sort` does not keep ties in order.  On a snapshot of seventeen
networks of strength 50, in key order ap00 ... ap16, the range is longer than 16, so it is
partitioned once: the median step swaps the middle entry ap08 to the front, and the partition,
all comparisons being false, swaps the rest pairwise from both ends.  The rows come out as
ap08, ap16, ..., ap09, ap00, ap07, ..., ap01, not in the snapshot's order. -/
theorem C6_ties_not_kept :
    tiedWifi.values.map Network.ssid = tiedSsids ∧
    (∀ n ∈ tiedWifi.values, n.strength = 50) ∧
    ((WifiUI.refresh quietEnv tiedWifi ⟨true, []⟩).list.map Row.network).map Network.ssid
      = ["ap08", "ap16", "ap15", "ap14", "ap13", "ap12", "ap11", "ap10", "ap09", "ap00", "ap07",
          "ap06", "ap05", "ap04", "ap03", "ap02", "ap01"] ∧
    ¬ TiesKeepOrder tiedWifi.values
      ((WifiUI.refresh quietEnv tiedWifi ⟨true, []⟩).list.map Row.network) := by
  refine ⟨by decide, by decide, by decide, ?_⟩
  intro h
  exact absurd (h 50) (by decide)

/-! ## The detail view -/

theorem refresh_shows (wifi : WifiManager) (d : WifiDetails) :
    WifiDetails.shows (WifiDetails.refresh wifi d) d.network :=
  ⟨rfl, rfl, rfl⟩

theorem refreshes_details (env : Env) (snapshots : List WifiManager) (st : Networking)
    (e : Network) (hn : st.detailsWidget.network = e)
    (hs : WifiDetails.shows st.detailsWidget e)
    (hf : st.detailsWidget.forget_btn_enabled = st.wifi.isKnownConnection e.ssid) :
    (Networking.refreshes env st snapshots).detailsWidget.network = e ∧
    WifiDetails.shows (Networking.refreshes env st snapshots).detailsWidget e ∧
    (Networking.refreshes env st snapshots).detailsWidget.forget_btn_enabled
      = (Networking.refreshes env st snapshots).wifi.isKnownConnection e.ssid := by
  induction snapshots generalizing st with
  | nil => exact ⟨hn, hs, hf⟩
  | cons wifi rest ih =>
    simp only [Networking.refreshes, List.foldl_cons]
    apply ih
    · exact hn
    · have h := refresh_shows wifi st.detailsWidget
      rw [hn] at h
      exact h
    · simp [Networking.refresh, WifiDetails.refresh, hn]

/-- The two labels the constructor puts on the page are written by neither
`WifiDetails::refresh` nor `WifiDetails::view`. -/
theorem page_labels_kept (wifi : WifiManager) (d : WifiDetails) (n : Network) :
    (WifiDetails.refresh wifi d).page_ssid_label = d.page_ssid_label ∧
    (WifiDetails.refresh wifi d).page_state_label = d.page_state_label ∧
    (WifiDetails.view wifi d n).page_ssid_label = d.page_ssid_label ∧
    (WifiDetails.view wifi d n).page_state_label = d.page_state_label :=
  ⟨rfl, rfl, rfl, rfl⟩

/-- C8 (amended): after `WifiDetails::view(e)` (through `Networking::viewNetwork`), every later
sequence of scan updates, each followed by the broadcast `Networking::refresh()`, leaves the
detail view on the copy `e` taken by `view`: the member `network` is still `e`, and the enabled
state of the Connect control, the signal label and the security label are those of `e`, whatever
the snapshots hold for `e.ssid`.  Only the enabled state of the Forget control follows the
manager: it is `isKnownConnection(e.ssid)` as of the last refresh.  Nothing is said of the
connection-state label. -/
theorem C8_detail_view_keeps_copy (env : Env) (st : Networking) (e : Network)
    (snapshots : List WifiManager) :
    (Networking.refreshes env (Networking.viewNetwork st e) snapshots).detailsWidget.network = e ∧
    WifiDetails.shows (Networking.refreshes env (Networking.viewNetwork st e) snapshots).detailsWidget
      e ∧
    (Networking.refreshes env (Networking.viewNetwork st e) snapshots).detailsWidget.forget_btn_enabled
      = (Networking.refreshes env (Networking.viewNetwork st e) snapshots).wifi.isKnownConnection
          e.ssid := by
  apply refreshes_details
  · rfl
  · exact ⟨rfl, rfl, rfl⟩
  · rfl

/-- C8 as stated fails: the detail view was opened on `home` (DISCONNECTED, strength 80); a later
snapshot holds `homeLater` (CONNECTED, strength 20) for the same ssid; after the broadcast refresh
the Connect control is still enabled and the signal label still reads "OK", where the snapshot's
entry gives a disabled Connect control and "Weak". -/
theorem C8_detail_view_stale :
    viewingHome.detailsWidget.network = home ∧
    laterWifi.seenNetworks.lookup home.ssid = some homeLater ∧
    (Networking.run quietEnv viewingHome
      [Event.wifiChanged laterWifi, Event.refreshSignal]).detailsWidget.connect_btn_enabled
      = true ∧
    decide (homeLater.connected = ConnectedType.DISCONNECTED) = false ∧
    (Networking.run quietEnv viewingHome
      [Event.wifiChanged laterWifi, Event.refreshSignal]).detailsWidget.signal_label = "OK" ∧
    WifiDetails.signalText (strengthBucket homeLater.strength) = "Weak" ∧
    ¬ WifiDetails.shows
        (Networking.run quietEnv viewingHome
          [Event.wifiChanged laterWifi, Event.refreshSignal]).detailsWidget homeLater := by
  have h80 : strengthBucket 80 = 2 := strengthBucket_val 80 2 (by decide) (by decide)
  have h20 : strengthBucket 20 = 1 := strengthBucket_val 20 1 (by decide) (by decide)
  have hsig : (Networking.run quietEnv viewingHome
      [Event.wifiChanged laterWifi, Event.refreshSignal]).detailsWidget.signal_label
      = WifiDetails.signalText (strengthBucket 80) := rfl
  refine ⟨by decide, by decide, by decide, by decide, ?_, ?_, ?_⟩
  · rw [hsig, h80]
    decide
  · show WifiDetails.signalText (strengthBucket 20) = "Weak"
    rw [h20]
    decide
  · intro h
    exact absurd h.1 (by decide)

/-! ## Which entries reach `connectToNetwork` -/

/-- C9 fails on the code at this input: the known network `office` has security type
UNSUPPORTED; its row carries the EDIT button; EDIT opens the detail view, whose Connect control
is enabled because the entry is DISCONNECTED; the click invokes `connectToNetwork(office)`, and
`activateWifiConnection("office")` is sent. -/
theorem C9_unsupported_reaches_connect :
    office.security_type = SecurityType.UNSUPPORTED ∧
    (Networking.run quietEnv sampleState [Event.refreshSignal]).wifiWidget.list.map
        (fun row => (row.network.ssid, row.ssidLabel_enabled, row.editBtn))
      = [("home", true, true), ("lobby", true, false), ("office", false, true),
          ("cafe", true, false)] ∧
    viewingOffice.main_layout = Screen.detailsWidget ∧
    viewingOffice.detailsWidget.connect_btn_enabled = true ∧
    viewingOffice.connectRequests = [] ∧
    (Networking.step quietEnv viewingOffice (Event.connect_btn_clicked "")).connectRequests
      = [office] ∧
    (Networking.step quietEnv viewingOffice (Event.connect_btn_clicked "")).calls
      = [WifiCall.updateGsmSettings false "", WifiCall.activateWifiConnection "office"] := by
  refine ⟨by decide, by decide, by decide, by decide, by decide, by decide, by decide⟩

theorem refresh_labelsGuarded (env : Env) (wifi : WifiManager) (ui : WifiUI) :
    ∀ row ∈ (WifiUI.refresh env wifi ui).list, row.ssidLabel_enabled = true →
      row.network.security_type ≠ SecurityType.UNSUPPORTED := by
  intro row hrow hen
  unfold WifiUI.refresh at hrow
  by_cases he : wifi.seenNetworks.isEmpty = true
  · simp [he] at hrow
  · simp only [he] at hrow
    obtain ⟨n, _, rfl⟩ := List.mem_map.1 hrow
    simpa [WifiUI.row] using hen

/-- A state whose list is the old one, or one `WifiUI::refresh` has just built, keeps the enabled
SSID labels on supported networks. -/
theorem labelsGuarded_of_widget (env : Env) (st r : Networking)
    (hw : r.wifiWidget = st.wifiWidget ∨ ∃ wifi ui, r.wifiWidget = WifiUI.refresh env wifi ui)
    (h : st.labelsGuarded) : r.labelsGuarded := by
  intro row hrow
  rcases hw with hw | ⟨wifi, ui, hw⟩
  · rw [hw] at hrow
    exact h row hrow
  · rw [hw] at hrow
    exact refresh_labelsGuarded env wifi ui row hrow

theorem connectToNetwork_widget (env : Env) (st : Networking) (n : Network) (getText : String) :
    (Networking.connectToNetwork env st n getText).wifiWidget = st.wifiWidget ∨
    ∃ wifi ui, (Networking.connectToNetwork env st n getText).wifiWidget
      = WifiUI.refresh env wifi ui := by
  unfold Networking.connectToNetwork
  simp only [Networking.send, Networking.openDialog]
  split_ifs
  · exact Or.inr ⟨_, st.wifiWidget, rfl⟩
  · exact Or.inl rfl
  · exact Or.inl rfl
  · exact Or.inl rfl
  · exact Or.inl rfl

theorem forgetNetwork_widget (env : Env) (st : Networking) (n : Network) (confirm : Bool) :
    (Networking.forgetNetwork env st n confirm).wifiWidget = st.wifiWidget ∨
    ∃ wifi ui, (Networking.forgetNetwork env st n confirm).wifiWidget
      = WifiUI.refresh env wifi ui := by
  cases confirm
  · exact Or.inl rfl
  · exact Or.inr ⟨_, st.wifiWidget, rfl⟩

theorem wrongPassword_widget (env : Env) (st : Networking) (ssid getText : String) :
    (Networking.wrongPassword env st ssid getText).wifiWidget = st.wifiWidget := by
  unfold Networking.wrongPassword
  cases st.wifi.seenNetworks.lookup ssid with
  | none => rfl
  | some n =>
    simp only [Networking.send, Networking.openDialog]
    split_ifs <;> rfl

theorem step_widget (env : Env) (st : Networking) (ev : Event) :
    (Networking.step env st ev).wifiWidget = st.wifiWidget ∨
    ∃ wifi ui, (Networking.step env st ev).wifiWidget = WifiUI.refresh env wifi ui := by
  cases ev with
  | wifiChanged wifi => exact Or.inl rfl
  | refreshSignal => exact Or.inr ⟨_, st.wifiWidget, rfl⟩
  | wrongPassword ssid getText => exact Or.inl (wrongPassword_widget env st ssid getText)
  | advancedSettings_clicked =>
    simp only [Networking.step]
    split_ifs <;> exact Or.inl rfl
  | ssidLabel_clicked i getText =>
    simp only [Networking.step]
    split_ifs
    · cases st.wifiWidget.list[i]? with
      | none => exact Or.inl rfl
      | some row =>
        simp only
        split_ifs
        · exact connectToNetwork_widget env st row.network getText
        · exact Or.inl rfl
    · exact Or.inl rfl
  | editBtn_clicked i =>
    simp only [Networking.step]
    split_ifs
    · cases st.wifiWidget.list[i]? with
      | none => exact Or.inl rfl
      | some row =>
        simp only
        split_ifs <;> exact Or.inl rfl
    · exact Or.inl rfl
  | back_btn_clicked =>
    simp only [Networking.step]
    split_ifs <;> exact Or.inl rfl
  | connect_btn_clicked getText =>
    simp only [Networking.step, WifiDetails.connect_btn_clicked]
    split_ifs
    · exact connectToNetwork_widget env st _ getText
    · exact Or.inl rfl
    · exact Or.inl rfl
  | forget_btn_clicked confirm =>
    simp only [Networking.step, WifiDetails.forget_btn_clicked]
    split_ifs
    · exact forgetNetwork_widget env st _ confirm
    · exact Or.inl rfl
    · exact Or.inl rfl
  | an_back_clicked =>
    simp only [Networking.step]
    split_ifs <;> exact Or.inl rfl
  | tetheringToggle_flipped enabled =>
    simp only [Networking.step]
    split_ifs <;> exact Or.inl rfl

/-- Every step keeps the enabled SSID labels on supported networks. -/
theorem step_labelsGuarded (env : Env) (st : Networking) (ev : Event) (h : st.labelsGuarded) :
    (Networking.step env st ev).labelsGuarded :=
  labelsGuarded_of_widget env st _ (step_widget env st ev) h

theorem run_labelsGuarded (env : Env) (evs : List Event) (st : Networking)
    (h : st.labelsGuarded) : (Networking.run env st evs).labelsGuarded := by
  induction evs generalizing st with
  | nil => exact h
  | cons ev rest ih => exact ih _ (step_labelsGuarded env st ev h)

theorem connectToNetwork_requests (env : Env) (st : Networking) (n : Network)
    (getText : String) :
    (Networking.connectToNetwork env st n getText).connectRequests
      = st.connectRequests ++ [n] := by
  unfold Networking.connectToNetwork
  simp only [Networking.send, Networking.openDialog]
  split_ifs <;> rfl

/-- The list path is guarded: in every state reached from construction by any sequence of events,
a click on a row's SSID label either invokes nothing or invokes `connectToNetwork` once with an
entry whose security type is OPEN or WPA. -/
theorem ssidLabel_request_supported (env : Env) (wifi : WifiManager) (show_advanced : Bool)
    (network0 : Network) (roaming : Bool) (apn : String) (evs : List Event) (i : Nat)
    (getText : String) :
    (Networking.step env
        (Networking.run env (Networking.init env wifi show_advanced network0 roaming apn) evs)
        (Event.ssidLabel_clicked i getText)).connectRequests
      = (Networking.run env (Networking.init env wifi show_advanced network0 roaming apn)
          evs).connectRequests ∨
    ∃ n, (n.security_type = SecurityType.OPEN ∨ n.security_type = SecurityType.WPA) ∧
      (Networking.step env
          (Networking.run env (Networking.init env wifi show_advanced network0 roaming apn) evs)
          (Event.ssidLabel_clicked i getText)).connectRequests
        = (Networking.run env (Networking.init env wifi show_advanced network0 roaming apn)
            evs).connectRequests ++ [n] := by
  have hinit : (Networking.init env wifi show_advanced network0 roaming apn).labelsGuarded := by
    intro row hrow
    simp [Networking.init, Networking.send] at hrow
  have hg := run_labelsGuarded env evs _ hinit
  generalize Networking.run env (Networking.init env wifi show_advanced network0 roaming apn) evs
    = st at hg
  simp only [Networking.step]
  by_cases hs : st.main_layout = Screen.wifiScreen
  · simp only [hs, if_true]
    cases hrow : st.wifiWidget.list[i]? with
    | none => exact Or.inl rfl
    | some row =>
      simp only
      by_cases hc : row.ssidLabel_enabled = true ∧ row.ssidLabel_clicked = true
      · right
        have hmem : row ∈ st.wifiWidget.list := List.getElem?_mem hrow
        have hsup := hg row hmem hc.1
        refine ⟨row.network, ?_, ?_⟩
        · cases hsec : row.network.security_type
          · exact Or.inl rfl
          · exact Or.inr rfl
          · exact absurd hsec hsup
        · simp only [hc, and_self, if_true]
          exact connectToNetwork_requests env st row.network getText
      · left
        simp only [hc, if_false]
  · left
    simp only [hs, if_false]

/-! ## Leaving the detail view -/

theorem connectToNetwork_main_layout (env : Env) (st : Networking) (n : Network)
    (getText : String) :
    (Networking.connectToNetwork env st n getText).main_layout = st.main_layout := by
  unfold Networking.connectToNetwork
  simp only [Networking.send, Networking.openDialog]
  split_ifs <;> rfl

theorem wrongPassword_main_layout (env : Env) (st : Networking) (ssid getText : String) :
    (Networking.wrongPassword env st ssid getText).main_layout = st.main_layout := by
  unfold Networking.wrongPassword
  cases st.wifi.seenNetworks.lookup ssid with
  | none => rfl
  | some n =>
    simp only [Networking.send, Networking.openDialog]
    split_ifs <;> rfl

/-- C10 (amended): the panel starts on `wifiScreen`.  From the detail view, one event moves
`main_layout` to `wifiScreen` exactly when it is a click on Back, a click on the enabled Connect
control while the viewed copy is DISCONNECTED, or a click on the enabled Forget control while the
ssid is a known connection; this holds whatever the password dialog returns and whether or not
the confirmation is accepted.  Every other event leaves `main_layout` on the detail view. -/
theorem C10_leaving_detail (env : Env) (st : Networking) (ev : Event)
    (h : st.main_layout = Screen.detailsWidget) :
    (∀ wifi show_advanced network0 roaming apn,
      (Networking.init env wifi show_advanced network0 roaming apn).main_layout
        = Screen.wifiScreen) ∧
    (Networking.step env st ev).main_layout =
      match ev with
      | Event.back_btn_clicked => Screen.wifiScreen
      | Event.connect_btn_clicked _ =>
        if st.detailsWidget.connect_btn_enabled = true ∧
            st.detailsWidget.network.connected = ConnectedType.DISCONNECTED
        then Screen.wifiScreen else Screen.detailsWidget
      | Event.forget_btn_clicked _ =>
        if st.detailsWidget.forget_btn_enabled = true ∧
            st.wifi.isKnownConnection st.detailsWidget.network.ssid = true
        then Screen.wifiScreen else Screen.detailsWidget
      | _ => Screen.detailsWidget := by
  refine ⟨fun _ _ _ _ _ => rfl, ?_⟩
  cases ev with
  | wifiChanged wifi => exact h
  | refreshSignal => exact h
  | wrongPassword ssid getText => exact (wrongPassword_main_layout env st ssid getText).trans h
  | advancedSettings_clicked => simp [Networking.step, h]
  | ssidLabel_clicked i getText => simp [Networking.step, h]
  | editBtn_clicked i => simp [Networking.step, h]
  | back_btn_clicked => simp [Networking.step, h, Networking.backPress]
  | connect_btn_clicked getText =>
    by_cases h1 : st.detailsWidget.connect_btn_enabled = true
    · by_cases h2 : st.detailsWidget.network.connected = ConnectedType.DISCONNECTED
      · simp [Networking.step, WifiDetails.connect_btn_clicked, Networking.backPress, h, h1, h2]
      · simp [Networking.step, WifiDetails.connect_btn_clicked, h, h1, h2]
    · simp [Networking.step, h, h1]
  | forget_btn_clicked confirm =>
    by_cases h1 : st.detailsWidget.forget_btn_enabled = true
    · by_cases h2 : st.wifi.isKnownConnection st.detailsWidget.network.ssid = true
      · simp [Networking.step, WifiDetails.forget_btn_clicked, Networking.backPress, h, h1, h2]
      · simp [Networking.step, WifiDetails.forget_btn_clicked, h, h1, h2]
    · simp [Networking.step, h, h1]
  | an_back_clicked => simp [Networking.step, h]
  | tetheringToggle_flipped enabled => simp [Networking.step, h]

/-- C10 (amended) on the detail view of `home`, at a Forget click that is then declined. -/
theorem C10_leaving_detail_witness :
    viewingHome.main_layout = Screen.detailsWidget ∧
    (Networking.step quietEnv viewingHome (Event.forget_btn_clicked false)).main_layout
      = (if viewingHome.detailsWidget.forget_btn_enabled = true ∧
            viewingHome.wifi.isKnownConnection viewingHome.detailsWidget.network.ssid = true
          then Screen.wifiScreen else Screen.detailsWidget) :=
  ⟨by decide,
    (C10_leaving_detail quietEnv viewingHome (Event.forget_btn_clicked false) (by decide)).2⟩

/-- C10 as stated fails: on the detail view of `home`, a Forget click whose confirmation is
declined sends no command and still moves the panel to `wifiScreen`; and, once the stored
credentials of `home` are gone, a Connect click whose password dialog is cancelled sends no
command and still moves the panel to `wifiScreen`. -/
theorem C10_unperformed_action_leaves_detail :
    viewingHome.main_layout = Screen.detailsWidget ∧
    (Networking.step quietEnv viewingHome (Event.forget_btn_clicked false)).dialogs
      = [Dialog.confirm "home"] ∧
    (Networking.step quietEnv viewingHome (Event.forget_btn_clicked false)).calls
      = viewingHome.calls ∧
    (Networking.step quietEnv viewingHome (Event.forget_btn_clicked false)).main_layout
      = Screen.wifiScreen ∧
    (Networking.step quietEnv viewingHome (Event.wifiChanged forgottenWifi)).main_layout
      = Screen.detailsWidget ∧
    (Networking.run quietEnv viewingHome
      [Event.wifiChanged forgottenWifi, Event.connect_btn_clicked ""]).dialogs
      = [Dialog.getText "Enter password" "home" 8] ∧
    (Networking.run quietEnv viewingHome
      [Event.wifiChanged forgottenWifi, Event.connect_btn_clicked ""]).calls
      = viewingHome.calls ∧
    (Networking.run quietEnv viewingHome
      [Event.wifiChanged forgottenWifi, Event.connect_btn_clicked ""]).main_layout
      = Screen.wifiScreen := by
  refine ⟨by decide, by decide, by decide, by decide, by decide, by decide, by decide, by decide⟩

/-- C5 at the ssid "attic", which `sampleWifi` does not see: the signal is dropped. -/
theorem C5_wrongPassword_witness :
    "attic" ∉ sampleState.wifi.seenNetworks.map Prod.fst ∧
    Networking.wrongPassword quietEnv sampleState "attic" "espresso1234" = sampleState :=
  ⟨by decide, (C5_wrongPassword quietEnv sampleState "attic" "espresso1234").1 (by decide)⟩

end Offroad
